import Mathlib

/-!
Verification of the metadata↔filesystem synchronization engine of the
receipts manager (`src/app.py`).  The Python source is shallowly embedded:
strings are `String`/`List Char`, the JSON document is a structure, the
filesystem is the list of (relative) paths of the files that exist, and the
HTTP handlers become pure functions from a pre-state to an outcome carrying
the response, the persisted document and the resulting filesystem.
-/

namespace ReceiptsApp

/-! ## Character classes used by `sanitize_filename` (app.py lines 34-43) -/

/-- The characters removed by `re.sub(r'[<>:"/\\|?*\x00-\x1f]', "", text)`:
the nine forbidden filename characters together with the control range
`\x00`-`\x1f`. -/
def isForbiddenChar (c : Char) : Bool :=
  c == '<' || c == '>' || c == ':' || c == '"' || c == '/' || c == '\\' ||
  c == '|' || c == '?' || c == '*' || decide (c.toNat ≤ 0x1f)

/-- The characters matched by Python's `\s` on `str` (the ASCII whitespace
characters together with the Unicode whitespace code points recognised by
`re`). -/
def isPyWhitespace (c : Char) : Bool :=
  c == ' ' || c == '\t' || c == '\n' || c == '\r' || c == '\x0b' || c == '\x0c' ||
  c == '\x1c' || c == '\x1d' || c == '\x1e' || c == '\x1f' ||
  c == '\x85' || c == '\xa0' || c == ' ' ||
  (decide (0x2000 ≤ c.toNat) && decide (c.toNat ≤ 0x200a)) ||
  c == ' ' || c == ' ' || c == ' ' || c == ' ' || c == '　'

/-! ## List-of-characters primitives mirroring the Python string operations -/

/-- `re.sub(r"-+", "-", text)`: collapse every run of hyphens to a single
hyphen. -/
def collapseHyphens : List Char → List Char
  | [] => []
  | [c] => [c]
  | a :: b :: rest =>
    if a = '-' ∧ b = '-' then collapseHyphens (b :: rest)
    else a :: collapseHyphens (b :: rest)

/-- Python `str.rstrip(c)`: drop every trailing occurrence of `c`. -/
def rstripChar (c : Char) (l : List Char) : List Char :=
  ((l.reverse.dropWhile (· = c)).reverse)

/-- Python `str.strip(c)`: drop every leading and trailing occurrence of
`c`. -/
def stripChar (c : Char) (l : List Char) : List Char :=
  rstripChar c (l.dropWhile (· = c))

/-- `sanitize_filename` (app.py lines 34-43) on the underlying character
list.  The two regex passes `re.sub(r"[\s]+", "-", ·)` then
`re.sub(r"-+", "-", ·)` are embedded as: replace every whitespace character
by a hyphen, then collapse hyphen runs — the composition is the same
function, because the second pass collapses the hyphen run produced from
each whitespace run. -/
def sanitizeList (l : List Char) (max_length : Nat) : List Char :=
  if l = [] ∨ l = "N/A".data then "NA".data
  else
    let t1 := l.filter (fun c => !isForbiddenChar c)
    let t2 := t1.map (fun c => if isPyWhitespace c then '-' else c)
    let t3 := collapseHyphens t2
    let t4 := stripChar '-' t3
    let t5 := if t4.length > max_length then rstripChar '-' (t4.take max_length) else t4
    if t5 = [] then "unnamed".data else t5

/-- `sanitize_filename(text, max_length=50)` (app.py lines 34-43). -/
def sanitize_filename (text : String) (max_length : Nat := 50) : String :=
  ⟨sanitizeList text.data max_length⟩

/-! ## Dates (`format_date_for_filename`, `calculate_guarantee_end_date`) -/

/-- Python `text.split("-")` on character lists (single-character
separator): always returns at least one (possibly empty) piece. -/
def splitOnHyphen : List Char → List (List Char)
  | [] => [[]]
  | c :: rest =>
    if c = '-' then [] :: splitOnHyphen rest
    else
      match splitOnHyphen rest with
      | h :: t => (c :: h) :: t
      | [] => [[c]]

/-- Value of a big-endian decimal digit string (`int` applied to digits). -/
def natOfDigits (l : List Char) : Nat :=
  l.foldl (fun n c => n * 10 + (c.toNat - 48)) 0

/-- `strptime` field `%Y`: exactly four decimal digits. -/
def parseYear4 (l : List Char) : Option Nat :=
  if l.length = 4 ∧ l.all Char.isDigit then some (natOfDigits l) else none

def monthAbbrevs : List String :=
  ["Jan", "Feb", "Mar", "Apr", "May", "Jun",
   "Jul", "Aug", "Sep", "Oct", "Nov", "Dec"]

/-- `strptime` field `%b`: a case-insensitive month abbreviation, returned
as a month number 1-12. -/
def parseMonthAbbrev (l : List Char) : Option Nat :=
  match monthAbbrevs.findIdx?
      (fun m => m.data.map Char.toLower == l.map Char.toLower) with
  | some i => some (i + 1)
  | none => none

/-- `strptime` field `%d`: the regex `3[01]|[12]\d|0[1-9]|[1-9]| [1-9]`
(one or two digits 1-31, optionally space-padded, rejecting 0 and 00). -/
def parseDay (l : List Char) : Option Nat :=
  match l with
  | [c] => if c.isDigit ∧ c ≠ '0' then some (c.toNat - 48) else none
  | [' ', c] => if c.isDigit ∧ c ≠ '0' then some (c.toNat - 48) else none
  | [a, b] =>
    if a.isDigit ∧ b.isDigit then
      let v := natOfDigits [a, b]
      if 1 ≤ v ∧ v ≤ 31 then some v else none
    else none
  | _ => none

def isLeapYear (y : Nat) : Bool :=
  y % 4 == 0 && (y % 100 != 0 || y % 400 == 0)

/-- Length of a month of the proleptic Gregorian calendar used by
`datetime` (the value of the source's "first day of the next month minus
one day" computation). -/
def daysInMonth (y m : Nat) : Nat :=
  if m = 2 then (if isLeapYear y then 29 else 28)
  else if m = 4 ∨ m = 6 ∨ m = 9 ∨ m = 11 then 30
  else 31

/-- `datetime.strptime(s, "%Y-%b-%d")` as (year, month, day): a 4-digit
year ≥ 1, a case-insensitive month abbreviation, a 1-2 digit day, and the
day must exist in that month (`datetime` construction validates it). -/
def parseDateYbD (s : String) : Option (Nat × Nat × Nat) :=
  match splitOnHyphen s.data with
  | [ys, ms, ds] =>
    match parseYear4 ys, parseMonthAbbrev ms, parseDay ds with
    | some y, some m, some d =>
      if 1 ≤ y ∧ d ≤ daysInMonth y m then some (y, m, d) else none
    | _, _, _ => none
  | _ => none

/-- Big-endian decimal digits of `n` (fuel-indexed so that the definition
is structurally recursive; fuel `n` is always enough). -/
def natReprAux : Nat → Nat → List Char
  | 0, _ => []
  | fuel + 1, n => if n = 0 then [] else natReprAux fuel (n / 10) ++ [Nat.digitChar (n % 10)]

/-- Decimal representation of a natural number. -/
def natRepr (n : Nat) : List Char :=
  if n = 0 then ['0'] else natReprAux n n

/-- Zero-padding to a minimal width, as in `"%04d"` / `strftime` numeric
fields. -/
def padZeros (width n : Nat) : List Char :=
  List.replicate (width - (natRepr n).length) '0' ++ natRepr n

def monthAbbrevStr (m : Nat) : String :=
  monthAbbrevs.getD (m - 1) ""

/-- `strftime("%Y-%b-%d")` on a (year, month, day). -/
def formatDateYbD (y m d : Nat) : String :=
  String.mk (padZeros 4 y) ++ "-" ++ monthAbbrevStr m ++ "-" ++ String.mk (padZeros 2 d)

/-- `strftime("%Y%b%d")` on a (year, month, day). -/
def formatDateCompact (y m d : Nat) : String :=
  String.mk (padZeros 4 y) ++ monthAbbrevStr m ++ String.mk (padZeros 2 d)

/-- `format_date_for_filename` (app.py lines 45-50): reformat
`YYYY-Mon-DD` as `YYYYMonDD`; on parse failure fall back to
`date_str.replace("-", "")`. -/
def format_date_for_filename (date_str : String) : String :=
  match parseDateYbD date_str with
  | some (y, m, d) => formatDateCompact y m d
  | none => String.mk (date_str.data.filter (· ≠ '-'))

/-- One day later in the calendar; used to embed `timedelta(days=n)`. -/
def nextDay : Nat × Nat × Nat → Nat × Nat × Nat
  | (y, m, d) =>
    if d < daysInMonth y m then (y, m, d + 1)
    else if m < 12 then (y, m + 1, 1)
    else (y + 1, 1, 1)

def addDays (ymd : Nat × Nat × Nat) : Nat → Nat × Nat × Nat
  | 0 => ymd
  | n + 1 => nextDay (addDays ymd n)

/-- `calculate_guarantee_end_date` (app.py lines 52-88).  `datetime`
construction past year 9999 raises, and the enclosing `try/except` turns
that into `"N/A"`; those year bounds appear here as explicit checks. -/
def calculate_guarantee_end_date (purchase_date : String) (duration : Nat)
    (unit : String) : String :=
  if duration = 0 then "N/A"
  else
    match parseDateYbD purchase_date with
    | none => "N/A"
    | some (y, m, d) =>
      if unit = "days" then
        let ymd := addDays (y, m, d) duration
        if ymd.1 > 9999 then "N/A" else formatDateYbD ymd.1 ymd.2.1 ymd.2.2
      else if unit = "months" then
        let month0 := m + duration
        let year := y + (month0 - 1) / 12
        let month := ((month0 - 1) % 12) + 1
        -- last_day is "first day of the following month minus one day";
        -- constructing that following month past year 9999 raises.
        if month = 12 ∧ year + 1 > 9999 then "N/A"
        else if month ≠ 12 ∧ year > 9999 then "N/A"
        else
          let last := daysInMonth year month
          if d ≤ last then formatDateYbD year month d
          else formatDateYbD year month last
      else if unit = "years" then
        let year := y + duration
        -- both datetime(year, month, day) and its day-28 fallback raise
        -- past year 9999, escaping to the outer handler.
        if year > 9999 then "N/A"
        else if m = 12 ∧ year + 1 > 9999 then "N/A"
        else formatDateYbD year m (daysInMonth year m)
      else "N/A"

/-! ## Data model (the JSON document of `data.json`) -/

structure Receipt where
  receipt_group_id : String
  shop : String
  purchase_date : String
  documentation : String
  receipt_filename : String
  receipt_relative_path : String
deriving DecidableEq

structure Item where
  id : Nat
  receipt_group_id : String
  brand : String
  model : String
  location : String
  users : List String
  project : String
  guarantee_duration : Nat
  guarantee_unit : String
  guarantee_end_date : String
  receipt_relative_path : String
deriving DecidableEq

structure IntegrityIssue where
  id : Nat
  type : String
  receipt_group_id : String
  path : String
deriving DecidableEq

structure Document where
  receipts : List Receipt
  items : List Item
  next_id : Nat
  integrity_issues : List IntegrityIssue
deriving DecidableEq

/-! ## Group id generation -/

/-- One attempt of the regex `RG-(\d+)` whose `R` sits just before this
list: the list must continue `G`, `-`, then at least one digit; the
maximal digit run is captured. -/
def matchRGAt : List Char → Option Nat
  | g :: h :: d :: ds =>
    if g = 'G' ∧ h = '-' ∧ d.isDigit = true then
      some (natOfDigits (d :: ds.takeWhile Char.isDigit))
    else none
  | _ => none

/-- `re.search(r"RG-(\d+)", rid)` followed by `int(m.group(1))`: try the
pattern at each start position, left to right, first success winning. -/
def findRGNum : List Char → Option Nat
  | [] => none
  | c :: rest =>
    if c = 'R' then (matchRGAt rest).orElse (fun _ => findRGNum rest)
    else findRGNum rest

/-- `generate_receipt_group_id` (app.py lines 140-147): collect the
`RG-(\d+)` numbers of all existing receipt group ids, take the maximum
(0 when there are none), add 1, and format as `RG-%04d`. -/
def generate_receipt_group_id (data : Document) : String :=
  let numbers := (data.receipts.map (fun r => r.receipt_group_id)).filterMap
    (fun s => findRGNum s.data)
  "RG-" ++ String.mk (padZeros 4 (numbers.foldr max 0 + 1))

/-! ## Filename synthesis -/

/-- Python `"-".join` on a list of strings. -/
def joinHyphen : List String → String
  | [] => ""
  | [s] => s
  | s :: rest => s ++ "-" ++ joinHyphen rest

/-- Python slicing `s[:n]`. -/
def strTake (s : String) (n : Nat) : String :=
  String.mk (s.data.take n)

/-- `build_single_item_filename` (app.py lines 149-165). -/
def build_single_item_filename (item : Item) (receipt : Receipt) (ext : String) : String :=
  let usersPart :=
    if item.users ≠ [] then
      joinHyphen ((item.users.take 3).map (fun u => sanitize_filename u 15))
    else "NoUser"
  let base := joinHyphen [
    sanitize_filename item.brand 30,
    sanitize_filename item.model 30,
    format_date_for_filename receipt.purchase_date,
    sanitize_filename receipt.shop 20,
    sanitize_filename item.location 20,
    usersPart,
    sanitize_filename receipt.documentation 20]
  let full := base ++ ext
  if full.length > 200 then strTake base (200 - ext.length) ++ ext
  else full

/-- `get_storage_directory` (app.py lines 183-186), as the name of the
single directory level under the storage root (`BASE_DIR / name` in the
source). -/
def get_storage_directory (item : Item) : String :=
  if item.project ≠ "" ∧ item.project ≠ "N/A" then sanitize_filename item.project 50
  else sanitize_filename item.brand 50

/-- `pathlib.Path(...).suffix` of a relative path: the extension of the
final component, empty when there is no interior dot. -/
def extOf (path : String) : String :=
  let name := (path.data.reverse.takeWhile (· ≠ '/')).reverse
  let e := name.reverse.takeWhile (· ≠ '.')
  if e.length ≠ 0 ∧ e.length + 1 < name.length then String.mk ('.' :: e.reverse)
  else ""

/-! ## Item update (`Handler.do_PUT`, app.py lines 559-679)

The handler mutates the first item with a matching id and its receipt in
place and then calls `save_data`; here the persisted document is the
`Document` value, the filesystem is the list of relative paths (under
`BASE_DIR`) of the files that exist, and an early `return` before
`save_data` leaves both unchanged. -/

/-- The partial field set of a PUT body: `none` means the key is absent
from the request.  A JSON `users: null` arrives as `some []` because the
handler normalises it with `updates["users"] or []`. -/
structure Updates where
  brand : Option String := none
  model : Option String := none
  location : Option String := none
  users : Option (List String) := none
  project : Option String := none
  shop : Option String := none
  purchase_date : Option String := none
  documentation : Option String := none
  guarantee_duration : Option Nat := none
  guarantee_unit : Option String := none
deriving DecidableEq

/-- Replace the first element satisfying `p` (the handler mutates the
single object produced by `next(i for i in ... if ...)` in place). -/
def replaceFirst (p : α → Bool) (x : α) : List α → List α
  | [] => []
  | y :: ys => if p y then x :: ys else y :: replaceFirst p x ys

/-- The item fields written by the update loop (app.py lines 596-637). -/
def updItem (u : Updates) (it : Item) : Item :=
  { it with
    brand := u.brand.getD it.brand
    model := u.model.getD it.model
    location := u.location.getD it.location
    project := u.project.getD it.project
    users := u.users.getD it.users
    guarantee_duration := u.guarantee_duration.getD it.guarantee_duration
    guarantee_unit := u.guarantee_unit.getD it.guarantee_unit }

/-- The receipt fields written by the update loop (app.py lines 613-631). -/
def updReceipt (u : Updates) (r : Receipt) : Receipt :=
  { r with
    shop := u.shop.getD r.shop
    purchase_date := u.purchase_date.getD r.purchase_date
    documentation := u.documentation.getD r.documentation }

/-- Whether some path-affecting field is present in the request body. -/
def pathAffectingEdited (u : Updates) : Bool :=
  u.brand.isSome || u.model.isSome || u.location.isSome || u.project.isSome ||
  u.users.isSome || u.shop.isSome || u.purchase_date.isSome || u.documentation.isSome

/-- The `needs_move` flag accumulated by the update loop: each branch sets
it only when the group is not multi and the edited field is one of brand,
model, location, project, users, shop, purchase_date, documentation
(app.py lines 594-631). -/
def needsMove (u : Updates) (is_multi : Bool) : Bool :=
  !is_multi && pathAffectingEdited u

/-- The item as mutated by a PUT body: the update loop's field writes
followed by the unconditional `guarantee_end_date` recomputation of
app.py line 639 (the interim write at lines 622-626 is overwritten by it
and is therefore not modelled separately). -/
def putUpdatedItem (u : Updates) (it : Item) (r : Receipt) : Item :=
  { updItem u it with
    guarantee_end_date :=
      calculate_guarantee_end_date (updReceipt u r).purchase_date
        (updItem u it).guarantee_duration (updItem u it).guarantee_unit }

/-- The destination filename computed for a relocation (app.py lines
646-647). -/
def putNewName (u : Updates) (it : Item) (r : Receipt) : String :=
  build_single_item_filename (putUpdatedItem u it r) (updReceipt u r)
    (extOf it.receipt_relative_path)

/-- The destination path (relative to the storage root) computed for a
relocation (app.py lines 648-650 and 661). -/
def putNewRel (u : Updates) (it : Item) (r : Receipt) : String :=
  get_storage_directory (putUpdatedItem u it r) ++ "/" ++ putNewName u it r

inductive PutResponse
  | itemNotFound
  | receiptNotFound
  | collision (filename : String)
  | success (item : Item)
deriving DecidableEq

structure PutOutcome where
  response : PutResponse
  data : Document
  fs : List String
deriving DecidableEq

/-- `Handler.do_PUT` for `/api/item/<id>` (app.py lines 563-679).  The
purchase-date branch's interim `guarantee_end_date` write (lines 622-626)
is dead — line 639 unconditionally recomputes it from the final field
values — so only the final recomputation appears. -/
def do_PUT (data : Document) (fs : List String) (item_id : Nat) (u : Updates) :
    PutOutcome :=
  match data.items.find? (fun i => i.id == item_id) with
  | none => ⟨.itemNotFound, data, fs⟩
  | some it =>
    match data.receipts.find? (fun r => r.receipt_group_id == it.receipt_group_id) with
    | none => ⟨.receiptNotFound, data, fs⟩
    | some r =>
      let is_multi :=
        (data.items.filter (fun i => i.receipt_group_id == it.receipt_group_id)).length > 1
      let old_path := it.receipt_relative_path
      let it1 := putUpdatedItem u it r
      let r1 := updReceipt u r
      if needsMove u is_multi ∧ old_path ≠ "" ∧ old_path ∈ fs then
        let new_name := putNewName u it r
        let new_rel := putNewRel u it r
        if new_rel ∈ fs ∧ new_rel ≠ old_path then
          -- early return before save_data: persisted document and
          -- filesystem both stay as they were.
          ⟨.collision new_name, data, fs⟩
        else
          let fs1 := if new_rel ≠ old_path then new_rel :: fs.erase old_path else fs
          let r2 := { r1 with receipt_filename := new_name, receipt_relative_path := new_rel }
          let it2 := { it1 with receipt_relative_path := new_rel }
          ⟨.success it2,
            { data with
              items := replaceFirst (fun i => i.id == item_id) it2 data.items
              receipts := replaceFirst
                (fun x => x.receipt_group_id == it.receipt_group_id) r2 data.receipts },
            fs1⟩
      else
        ⟨.success it1,
          { data with
            items := replaceFirst (fun i => i.id == item_id) it1 data.items
            receipts := replaceFirst
              (fun x => x.receipt_group_id == it.receipt_group_id) r1 data.receipts },
          fs⟩

/-! ## Item deletion (`Handler.do_DELETE`, app.py lines 684-731) -/

inductive DeleteResponse
  | itemNotFound
  | success
deriving DecidableEq

structure DeleteOutcome where
  response : DeleteResponse
  data : Document
  fs : List String
  /-- Whether the handler attempted `file_path.parent.rmdir()` (the
  best-effort removal of the now-empty directory). -/
  triedRmdir : Bool
deriving DecidableEq

/-- `Handler.do_DELETE` for `/api/item/<id>` (app.py lines 688-731). -/
def do_DELETE (data : Document) (fs : List String) (item_id : Nat) : DeleteOutcome :=
  match data.items.find? (fun i => i.id == item_id) with
  | none => ⟨.itemNotFound, data, fs, false⟩
  | some it =>
    let rg := it.receipt_group_id
    let group := data.items.filter (fun i => i.receipt_group_id == rg)
    if group.length = 1 then
      let rel := it.receipt_relative_path
      let fileThere := rel ≠ "" ∧ rel ∈ fs
      let fs1 := if rel ≠ "" ∧ rel ∈ fs then fs.erase rel else fs
      ⟨.success,
        { data with
          receipts := data.receipts.filter (fun r => !(r.receipt_group_id == rg))
          items := data.items.filter (fun i => !(i.id == item_id)) },
        fs1, decide fileThere⟩
    else
      ⟨.success,
        { data with items := data.items.filter (fun i => !(i.id == item_id)) },
        fs, false⟩

/-! ## Persistence (`save_data`, app.py lines 102-138)

A backup file is `BACKUP_DIR/data_backup_<ts>.json`; with the fixed-width
`%Y%m%d_%H%M%S` timestamp, `sorted` by filename is sorting by timestamp,
so backups are embedded as a timestamp-sorted list of
(timestamp, copied content) pairs.  Comparison of the two `json.dumps`
serialisations with `sort_keys=True` is equality of the underlying
documents, since that serialisation is injective on them. -/

/-- The state of `DATA_FILE` on disk before the save: missing, unreadable
(`json.loads` raises, so `changed` is forced to `True`), or parsed. -/
inductive ExistingFile
  | absent
  | corrupt
  | parsed (d : Document)
deriving DecidableEq

def contentOf : ExistingFile → Option Document
  | .absent => none
  | .corrupt => none
  | .parsed d => some d

/-- The document with the ephemeral `integrity_issues` key popped, the form
in which `save_data` compares old and new content. -/
def stripIssues (d : Document) : List Receipt × List Item × Nat :=
  (d.receipts, d.items, d.next_id)

/-- Insert a backup into the timestamp-sorted listing. -/
def insertBackup (b : Nat × Option Document) :
    List (Nat × Option Document) → List (Nat × Option Document)
  | [] => [b]
  | y :: ys => if b.1 ≤ y.1 then b :: y :: ys else y :: insertBackup b ys

/-- `if len(backups) > 20: for b in backups[:-20]: b.unlink()` — keep only
the last 20 entries of the sorted listing. -/
def pruneBackups (l : List (Nat × Option Document)) : List (Nat × Option Document) :=
  if l.length > 20 then l.drop (l.length - 20) else l

structure SaveResult where
  backups : List (Nat × Option Document)
  written : Document
deriving DecidableEq

/-- `save_data` (app.py lines 102-138): `existing` is the prior
`DATA_FILE`, `backups` the sorted backup listing, `ts` the current
`%Y%m%d_%H%M%S` timestamp and `d` the document being saved.  When the
timestamp collides with an existing backup, `shutil.copy2` overwrites that
file and the listing keeps the same names. -/
def save_data (existing : ExistingFile) (backups : List (Nat × Option Document))
    (ts : Nat) (d : Document) : SaveResult :=
  match existing with
  | .absent => ⟨backups, d⟩
  | _ =>
    let changed : Bool :=
      match existing with
      | .parsed old => decide (stripIssues d ≠ stripIssues old)
      | _ => true
    if changed then
      let bs :=
        if backups.any (fun b => b.1 == ts) then
          backups.map (fun b => if b.1 == ts then (ts, contentOf existing) else b)
        else insertBackup (ts, contentOf existing) backups
      ⟨pruneBackups bs, d⟩
    else ⟨backups, d⟩

/-! ## File retrieval (`Handler.do_GET` for `/api/file`, app.py lines
383-422)

An absolute path is a list of components; `BASE_DIR / rel` followed by
`Path.resolve()` is embedded as splitting `rel` on `/` (an absolute `rel`
discards the base, as `pathlib`'s `/` does) and normalising `.`/`..`/empty
components left to right, `..` at the root staying at the root.  The
check `str(target).startswith(str(base_resolved) + "/") or target ==
base_resolved` is the component-prefix test, because the appended `"/"`
forces the last base component to match completely. -/

/-- Python `text.split("/")` on character lists. -/
def splitOnSlash : List Char → List (List Char)
  | [] => [[]]
  | c :: rest =>
    if c = '/' then [] :: splitOnSlash rest
    else
      match splitOnSlash rest with
      | h :: t => (c :: h) :: t
      | [] => [[c]]

/-- Normalise path components against an accumulated absolute prefix. -/
def resolveComponents (acc : List String) : List String → List String
  | [] => acc
  | c :: rest =>
    if c = ".." then resolveComponents acc.dropLast rest
    else if c = "." ∨ c = "" then resolveComponents acc rest
    else resolveComponents (acc ++ [c]) rest

/-- `(BASE_DIR / rel).resolve()` for a storage root whose resolved
components are `base`. -/
def resolveRequestPath (base : List String) (rel : String) : List String :=
  let comps := (splitOnSlash rel.data).map String.mk
  if rel.data.head? = some '/' then resolveComponents [] comps
  else resolveComponents base comps

inductive FileResponse
  | missingParam
  | forbidden
  | notFound
  | ok (path : List String)
deriving DecidableEq

/-- The `/api/file` route (app.py lines 383-422): `fs` is the set of
existing regular files as resolved component lists; only `.ok` carries
file content. -/
def serve_file (base : List String) (fs : List (List String))
    (rel : Option String) : FileResponse :=
  match rel with
  | none => .missingParam
  | some rel =>
    let target := resolveRequestPath base rel
    if !(base.isPrefixOf target) then .forbidden
    else if target ∈ fs then .ok target
    else .notFound

/-! ## Sample states used to instantiate the general theorems -/

def sampleReceipt : Receipt := {
  receipt_group_id := "RG-0001", shop := "MediaMarkt",
  purchase_date := "2024-Jan-15", documentation := "invoice",
  receipt_filename := "f.pdf", receipt_relative_path := "OldBrand/f.pdf" }

def sampleItem : Item := {
  id := 1, receipt_group_id := "RG-0001", brand := "OldBrand",
  model := "X1", location := "Office", users := [], project := "N/A",
  guarantee_duration := 0, guarantee_unit := "days", guarantee_end_date := "N/A",
  receipt_relative_path := "OldBrand/f.pdf" }

/-- A document whose only group holds exactly one item. -/
def sampleDoc : Document :=
  { receipts := [sampleReceipt], items := [sampleItem], next_id := 2,
    integrity_issues := [] }

/-- A document whose only group holds two items. -/
def sampleDoc2 : Document :=
  { sampleDoc with items := [sampleItem, { sampleItem with id := 2 }] }

def sampleFs : List String := ["OldBrand/f.pdf"]

def brandUpdate : Updates := { brand := some "NewBrand" }

def guaranteeUpdate : Updates :=
  { guarantee_duration := some 24, guarantee_unit := some "months" }

/-! # Claim C3: path traversal is rejected by the retrieval interface -/

/-- Claim C3: every requested retrieval path that resolves, after
normalization, to a location outside the storage root is rejected with
`forbidden`, and no file content is served, whatever files exist. -/
theorem serve_file_rejects_outside_root (base : List String)
    (fs : List (List String)) (rel : String)
    (h : base.isPrefixOf (resolveRequestPath base rel) = false) :
    serve_file base fs (some rel) = .forbidden := by
  unfold serve_file
  simp [h]

/-- Witness for claim C3: `"../../etc/passwd"` escapes the root
`/srv/app` and is rejected even though the file `/etc/passwd` exists. -/
theorem serve_file_rejects_outside_root_witness :
    serve_file ["srv", "app"] [["etc", "passwd"]] (some "../../etc/passwd")
      = .forbidden :=
  serve_file_rejects_outside_root _ _ _ (by decide)

/-! # Claim C1: a filename collision aborts the update untouched -/

/-- Claim C1: when an update marks a relocation, the source file exists,
and the computed destination exists and differs from the source, `do_PUT`
answers with a `collision` error naming the conflicting filename, and
both the persisted document and the filesystem are returned unchanged. -/
theorem put_collision_aborts (data : Document) (fs : List String)
    (item_id : Nat) (u : Updates) (it : Item) (r : Receipt)
    (hit : data.items.find? (fun i => i.id == item_id) = some it)
    (hr : data.receipts.find?
      (fun x => x.receipt_group_id == it.receipt_group_id) = some r)
    (hmv : needsMove u (decide ((data.items.filter
      (fun i => i.receipt_group_id == it.receipt_group_id)).length > 1)) = true)
    (hop : it.receipt_relative_path ≠ "")
    (hofs : it.receipt_relative_path ∈ fs)
    (hdest : putNewRel u it r ∈ fs)
    (hne : putNewRel u it r ≠ it.receipt_relative_path) :
    do_PUT data fs item_id u = ⟨.collision (putNewName u it r), data, fs⟩ := by
  unfold do_PUT
  simp only [hit, hr]
  rw [if_pos ⟨hmv, hop, hofs⟩, if_pos ⟨hdest, hne⟩]

/-- Witness for claim C1: a brand edit whose computed destination is
already occupied by another file. -/
theorem put_collision_aborts_witness :
    do_PUT sampleDoc
      ["OldBrand/f.pdf",
       "NewBrand/NewBrand-X1-2024Jan15-MediaMarkt-Office-NoUser-invoice.pdf"]
      1 brandUpdate
    = ⟨.collision "NewBrand-X1-2024Jan15-MediaMarkt-Office-NoUser-invoice.pdf",
       sampleDoc,
       ["OldBrand/f.pdf",
        "NewBrand/NewBrand-X1-2024Jan15-MediaMarkt-Office-NoUser-invoice.pdf"]⟩ := by
  have h := put_collision_aborts sampleDoc
    ["OldBrand/f.pdf",
     "NewBrand/NewBrand-X1-2024Jan15-MediaMarkt-Office-NoUser-invoice.pdf"]
    1 brandUpdate sampleItem sampleReceipt
    (by decide) (by decide) (by decide) (by decide) (by decide) (by decide) (by decide)
  rw [h]
  decide

/-! # Claim C2: which edits trigger a file move -/

/-- Claim C2: the `needs_move` flag is set exactly when the group is not
multi and some edited field is among brand, model, location, project,
users, shop, purchase_date, documentation; a request that edits no
path-affecting field (such as a guarantee duration/unit edit) never
changes the filesystem; and on the sample states a brand edit moves the
single-item group's file to a name reflecting the new brand while the
same edit on a two-item group moves nothing. -/
theorem needs_move_trigger :
    (∀ (u : Updates) (m : Bool), needsMove u m = true ↔
      (m = false ∧ (u.brand.isSome = true ∨ u.model.isSome = true ∨
        u.location.isSome = true ∨ u.project.isSome = true ∨
        u.users.isSome = true ∨ u.shop.isSome = true ∨
        u.purchase_date.isSome = true ∨ u.documentation.isSome = true)))
    ∧ (∀ (data : Document) (fs : List String) (item_id : Nat) (u : Updates),
        pathAffectingEdited u = false → (do_PUT data fs item_id u).fs = fs)
    ∧ pathAffectingEdited guaranteeUpdate = false
    ∧ (do_PUT sampleDoc sampleFs 1 brandUpdate).fs
        = ["NewBrand/NewBrand-X1-2024Jan15-MediaMarkt-Office-NoUser-invoice.pdf"]
    ∧ (do_PUT sampleDoc2 sampleFs 1 brandUpdate).fs = sampleFs
    ∧ (do_PUT sampleDoc sampleFs 1 guaranteeUpdate).fs = sampleFs := by
  refine ⟨?_, ?_, by decide, by decide, by decide, by decide⟩
  · intro u m
    cases m <;> simp [needsMove, pathAffectingEdited, or_assoc]
  · intro data fs item_id u h
    cases hit : data.items.find? (fun i => i.id == item_id) with
    | none => simp [do_PUT, hit]
    | some it =>
      cases hr : data.receipts.find?
          (fun x => x.receipt_group_id == it.receipt_group_id) with
      | none => simp [do_PUT, hit, hr]
      | some r =>
        have hnm : ∀ m : Bool, needsMove u m = false := by
          intro m; simp [needsMove, h]
        simp [do_PUT, hit, hr, hnm]

/-! # Claim C5: the delete contract -/

/-- Claim C5: deleting the only item of its group removes the Receipt
record, the item and the underlying file, attempting to remove the
now-empty directory; deleting one item of a larger group removes only
that item, leaving receipts and filesystem untouched. -/
theorem delete_contract (data : Document) (fs : List String) (item_id : Nat)
    (it : Item)
    (hfind : data.items.find? (fun i => i.id == item_id) = some it)
    (hnd : fs.Nodup) :
    ((data.items.filter
        (fun i => i.receipt_group_id == it.receipt_group_id)).length = 1 →
      (do_DELETE data fs item_id).data.receipts
        = data.receipts.filter (fun r => !(r.receipt_group_id == it.receipt_group_id))
      ∧ (do_DELETE data fs item_id).data.items
        = data.items.filter (fun i => !(i.id == item_id))
      ∧ (it.receipt_relative_path ≠ "" ∧ it.receipt_relative_path ∈ fs →
          it.receipt_relative_path ∉ (do_DELETE data fs item_id).fs
          ∧ (do_DELETE data fs item_id).triedRmdir = true))
    ∧ ((data.items.filter
        (fun i => i.receipt_group_id == it.receipt_group_id)).length > 1 →
      (do_DELETE data fs item_id).data.receipts = data.receipts
      ∧ (do_DELETE data fs item_id).fs = fs
      ∧ (do_DELETE data fs item_id).triedRmdir = false
      ∧ (do_DELETE data fs item_id).data.items
        = data.items.filter (fun i => !(i.id == item_id))) := by
  constructor
  · intro h1
    refine ⟨?_, ?_, ?_⟩
    · simp [do_DELETE, hfind, if_pos h1]
    · simp [do_DELETE, hfind, if_pos h1]
    · intro hrel
      simp only [do_DELETE, hfind, if_pos h1, if_pos hrel]
      refine ⟨?_, by simp [hrel]⟩
      intro hmem
      exact ((List.Nodup.mem_erase_iff hnd).mp hmem).1 rfl
  · intro h2
    have h1 : ¬ ((data.items.filter
        (fun i => i.receipt_group_id == it.receipt_group_id)).length = 1) := by
      omega
    refine ⟨?_, ?_, ?_, ?_⟩ <;> simp [do_DELETE, hfind, if_neg h1]

/-- Witness for claim C5, on the two sample documents: the sole-item
delete removes receipt, item and file and attempts the directory
removal; deleting one of two items keeps the receipt, the other item and
the shared file. -/
theorem delete_contract_witness :
    ((do_DELETE sampleDoc sampleFs 1).data.receipts = []
      ∧ (do_DELETE sampleDoc sampleFs 1).data.items = []
      ∧ "OldBrand/f.pdf" ∉ (do_DELETE sampleDoc sampleFs 1).fs
      ∧ (do_DELETE sampleDoc sampleFs 1).triedRmdir = true)
    ∧ ((do_DELETE sampleDoc2 sampleFs 1).data.receipts = sampleDoc2.receipts
      ∧ (do_DELETE sampleDoc2 sampleFs 1).fs = sampleFs
      ∧ (do_DELETE sampleDoc2 sampleFs 1).data.items
          = [{ sampleItem with id := 2 }]) := by
  have h1 := (delete_contract sampleDoc sampleFs 1 sampleItem
      (by decide) (by decide)).1 (by decide)
  have h2 := (delete_contract sampleDoc2 sampleFs 1 sampleItem
      (by decide) (by decide)).2 (by decide)
  obtain ⟨ha, hb, hc⟩ := h1
  obtain ⟨hd, he, _, hf⟩ := h2
  have hfile := hc (by decide)
  refine ⟨⟨?_, ?_, hfile.1, hfile.2⟩, ⟨?_, he, ?_⟩⟩
  · rw [ha]; decide
  · rw [hb]; decide
  · rw [hd]
  · rw [hf]; decide

/-! # Claim C9: guarantee_end_date is recomputed on every update -/

/-- Replacing the first match keeps it the first match. -/
theorem find?_replaceFirst (p : α → Bool) (x a : α) (l : List α)
    (h : l.find? p = some a) (hx : p x = true) :
    (replaceFirst p x l).find? p = some x := by
  induction l with
  | nil => simp [List.find?] at h
  | cons y ys ih =>
    by_cases hy : p y
    · simp [replaceFirst, hy, List.find?_cons_of_pos, hx]
    · rw [List.find?_cons_of_neg _ (by simp [hy])] at h
      simp [replaceFirst, hy, List.find?_cons_of_neg, ih h]

/-- Claim C9: after every successful item update the stored
`guarantee_end_date` equals `calculate_guarantee_end_date` applied to the
post-update purchase date, guarantee duration and guarantee unit — even
when none of those fields were part of the request. -/
theorem put_recomputes_guarantee_end_date (data : Document) (fs : List String)
    (item_id : Nat) (u : Updates) (it2 : Item)
    (h : (do_PUT data fs item_id u).response = .success it2) :
    (do_PUT data fs item_id u).data.items.find? (fun i => i.id == item_id)
        = some it2
    ∧ ∃ r2, (do_PUT data fs item_id u).data.receipts.find?
          (fun x => x.receipt_group_id == it2.receipt_group_id) = some r2
        ∧ it2.guarantee_end_date
            = calculate_guarantee_end_date r2.purchase_date
                it2.guarantee_duration it2.guarantee_unit := by
  cases hit : data.items.find? (fun i => i.id == item_id) with
  | none => simp [do_PUT, hit] at h
  | some it =>
    cases hr : data.receipts.find?
        (fun x => x.receipt_group_id == it.receipt_group_id) with
    | none => simp [do_PUT, hit, hr] at h
    | some r =>
      have hpid : (it.id == item_id) = true := by
        have := List.find?_some hit
        simpa using this
      have hprg : (r.receipt_group_id == it.receipt_group_id) = true := by
        have := List.find?_some hr
        simpa using this
      simp only [do_PUT, hit, hr] at h ⊢
      by_cases hc1 : needsMove u (decide ((data.items.filter
          (fun i => i.receipt_group_id == it.receipt_group_id)).length > 1)) = true
          ∧ it.receipt_relative_path ≠ "" ∧ it.receipt_relative_path ∈ fs
      · rw [if_pos hc1] at h ⊢
        by_cases hc2 : putNewRel u it r ∈ fs
            ∧ putNewRel u it r ≠ it.receipt_relative_path
        · rw [if_pos hc2] at h
          simp at h
        · rw [if_neg hc2] at h ⊢
          dsimp only at h ⊢
          simp only [PutResponse.success.injEq] at h
          subst h
          constructor
          · exact find?_replaceFirst _ _ _ _ hit
              (by simpa [putUpdatedItem, updItem] using hpid)
          · refine ⟨_, find?_replaceFirst _ _ _ _ hr
              (by simpa [putUpdatedItem, updItem, updReceipt] using hprg), ?_⟩
            rfl
      · rw [if_neg hc1] at h ⊢
        dsimp only at h ⊢
        simp only [PutResponse.success.injEq] at h
        subst h
        constructor
        · exact find?_replaceFirst _ _ _ _ hit
            (by simpa [putUpdatedItem, updItem] using hpid)
        · refine ⟨_, find?_replaceFirst _ _ _ _ hr
            (by simpa [putUpdatedItem, updItem, updReceipt] using hprg), ?_⟩
          rfl

/-- A document whose single item carries a stale derived
`guarantee_end_date`. -/
def staleDoc : Document :=
  { sampleDoc with items := [{ sampleItem with guarantee_end_date := "stale" }] }

def locationUpdate : Updates := { location := some "Attic" }

/-- The item state `do_PUT staleDoc [] 1 locationUpdate` answers with. -/
def staleItemUpdated : Item :=
  putUpdatedItem locationUpdate { sampleItem with guarantee_end_date := "stale" }
    sampleReceipt

/-- Witness for claim C9: an update editing only the location still
refreshes a stale stored guarantee end date. -/
theorem put_recomputes_guarantee_end_date_witness :
    (do_PUT staleDoc [] 1 locationUpdate).response = .success staleItemUpdated
    ∧ ((do_PUT staleDoc [] 1 locationUpdate).data.items.find?
          (fun i => i.id == 1) = some staleItemUpdated
      ∧ ∃ r2, (do_PUT staleDoc [] 1 locationUpdate).data.receipts.find?
            (fun x => x.receipt_group_id == staleItemUpdated.receipt_group_id)
          = some r2
        ∧ staleItemUpdated.guarantee_end_date
            = calculate_guarantee_end_date r2.purchase_date
                staleItemUpdated.guarantee_duration
                staleItemUpdated.guarantee_unit) :=
  ⟨by decide, put_recomputes_guarantee_end_date staleDoc [] 1 locationUpdate
    staleItemUpdated (by decide)⟩

/-! # Claim C4: change-triggered backups, pruned to the 20 most recent -/

/-- Inserting a backup whose timestamp exceeds every listed one appends
it at the end. -/
theorem insertBackup_append (b : Nat × Option Document)
    (l : List (Nat × Option Document)) (h : ∀ y ∈ l, y.1 < b.1) :
    insertBackup b l = l ++ [b] := by
  induction l with
  | nil => rfl
  | cons y ys ih =>
    have hy := h y (by simp)
    rw [insertBackup, if_neg (by omega)]
    rw [ih (fun z hz => h z (by simp [hz]))]
    rfl

/-- Claim C4: saving over an existing document whose content differs only
in `integrity_issues` creates no backup; saving a genuinely changed
document creates exactly one timestamped backup of the prior on-disk
file, after which exactly the `min (previous+1) 20` most recent backups
remain. -/
theorem save_data_backup_policy (old : Document)
    (backups : List (Nat × Option Document)) (ts : Nat) (d : Document)
    (hfresh : ∀ b ∈ backups, b.1 < ts) :
    (stripIssues d = stripIssues old →
      (save_data (.parsed old) backups ts d).backups = backups)
    ∧ (stripIssues d ≠ stripIssues old →
      (save_data (.parsed old) backups ts d).backups
          = (backups ++ [(ts, some old)]).drop (backups.length + 1 - 20)
      ∧ (save_data (.parsed old) backups ts d).backups.length
          = min (backups.length + 1) 20) := by
  have hany : backups.any (fun b => b.1 == ts) = false := by
    rw [List.any_eq_false]
    intro b hb
    have := hfresh b hb
    simp
    omega
  constructor
  · intro he
    simp [save_data, he]
  · intro hne
    have hchanged : decide (stripIssues d ≠ stripIssues old) = true := by
      simpa using hne
    have hres : (save_data (.parsed old) backups ts d).backups
        = pruneBackups (backups ++ [(ts, some old)]) := by
      simp only [save_data, hchanged, if_pos, hany, Bool.false_eq_true, if_neg,
        if_true]
      rw [if_neg (by simp [hany]), insertBackup_append _ _ hfresh]
      rfl
    have hlen : (backups ++ [(ts, some old)]).length = backups.length + 1 := by
      simp
    constructor
    · rw [hres]
      unfold pruneBackups
      rw [hlen]
      split
      · rfl
      · rw [Nat.sub_eq_zero_of_le (by omega), List.drop_zero]
    · rw [hres]
      unfold pruneBackups
      rw [hlen]
      split
      · rw [List.length_drop, hlen]
        omega
      · rw [hlen]
        omega

/-- Witness for claim C4: a genuine change appends one backup of the old
file; an `integrity_issues`-only change appends none. -/
theorem save_data_backup_policy_witness :
    (save_data (.parsed sampleDoc) [(1, some sampleDoc)] 5 sampleDoc2).backups
      = [(1, some sampleDoc), (5, some sampleDoc)]
    ∧ (save_data (.parsed sampleDoc) [(1, some sampleDoc)] 5
        { sampleDoc with
          integrity_issues := [⟨1, "item", "RG-0001", "x"⟩] }).backups
      = [(1, some sampleDoc)] := by
  constructor
  · have h := ((save_data_backup_policy sampleDoc [(1, some sampleDoc)] 5
      sampleDoc2 (by decide)).2 (by decide)).1
    rw [h]
    decide
  · exact (save_data_backup_policy sampleDoc [(1, some sampleDoc)] 5 _
      (by decide)).1 (by decide)

/-! # Claim C8: group-id generation -/

theorem natReprAux_zero (fuel : Nat) : natReprAux fuel 0 = [] := by
  cases fuel <;> simp [natReprAux]

theorem digitChar_isDigit (d : Nat) (h : d < 10) :
    (Nat.digitChar d).isDigit = true := by
  interval_cases d <;> decide

theorem digitChar_val (d : Nat) (h : d < 10) :
    (Nat.digitChar d).toNat - 48 = d := by
  interval_cases d <;> decide

theorem natOfDigits_append_digit (l : List Char) (c : Char) :
    natOfDigits (l ++ [c]) = natOfDigits l * 10 + (c.toNat - 48) := by
  simp [natOfDigits, List.foldl_append]

theorem natReprAux_spec (fuel : Nat) : ∀ n : Nat, 0 < n → n ≤ fuel →
    natOfDigits (natReprAux fuel n) = n
    ∧ (natReprAux fuel n).all Char.isDigit = true
    ∧ natReprAux fuel n ≠ [] := by
  induction fuel with
  | zero => intro n h0 hf; omega
  | succ fuel ih =>
    intro n h0 hf
    rw [natReprAux, if_neg (by omega)]
    by_cases hn : n < 10
    · have h10 : n / 10 = 0 := Nat.div_eq_of_lt hn
      have hm : n % 10 = n := Nat.mod_eq_of_lt hn
      rw [h10, natReprAux_zero, List.nil_append]
      refine ⟨?_, ?_, by simp⟩
      · show 0 * 10 + ((Nat.digitChar (n % 10)).toNat - 48) = n
        rw [hm, digitChar_val n hn]
        omega
      · simp [hm, digitChar_isDigit n hn]
    · have hdiv : 0 < n / 10 := Nat.div_pos (by omega) (by omega)
      have hlt : n / 10 < n := Nat.div_lt_self h0 (by omega)
      obtain ⟨ih1, ih2, _⟩ := ih (n / 10) hdiv (by omega)
      refine ⟨?_, ?_, by simp⟩
      · rw [natOfDigits_append_digit, ih1,
          digitChar_val _ (Nat.mod_lt _ (by omega))]
        omega
      · simp only [List.all_append, ih2, Bool.true_and]
        simp [digitChar_isDigit _ (Nat.mod_lt n (by omega : 0 < 10))]

theorem natRepr_spec (n : Nat) :
    natOfDigits (natRepr n) = n
    ∧ (natRepr n).all Char.isDigit = true
    ∧ natRepr n ≠ [] := by
  by_cases h : n = 0
  · subst h
    exact ⟨by decide, by decide, by decide⟩
  · rw [natRepr, if_neg h]
    exact natReprAux_spec n n (by omega) le_rfl

theorem natOfDigits_replicate_zero (k : Nat) (l : List Char) :
    natOfDigits (List.replicate k '0' ++ l) = natOfDigits l := by
  induction k with
  | zero => rfl
  | succ k ih =>
    have step : natOfDigits (List.replicate (k + 1) '0' ++ l)
        = List.foldl (fun n c => n * 10 + (c.toNat - 48))
            (0 * 10 + ('0'.toNat - 48)) (List.replicate k '0' ++ l) := by
      simp [natOfDigits, List.replicate_succ]
    rw [step, show (0 * 10 + ('0'.toNat - 48)) = 0 by decide]
    exact ih

theorem takeWhile_of_all (p : α → Bool) (l : List α) (h : l.all p = true) :
    l.takeWhile p = l := by
  induction l with
  | nil => rfl
  | cons a t ih =>
    simp only [List.all_cons, Bool.and_eq_true] at h
    simp [List.takeWhile_cons, h.1, ih h.2]

theorem matchRGAt_digits (l : List Char) (hne : l ≠ [])
    (hdig : l.all Char.isDigit = true) :
    matchRGAt ('G' :: '-' :: l) = some (natOfDigits l) := by
  cases l with
  | nil => exact absurd rfl hne
  | cons d ds =>
    simp only [List.all_cons, Bool.and_eq_true] at hdig
    rw [matchRGAt, if_pos ⟨rfl, rfl, hdig.1⟩, takeWhile_of_all _ _ hdig.2]

/-- Parsing recovers exactly the number that `RG-%04d` printed. -/
theorem findRGNum_padZeros (n : Nat) :
    findRGNum ("RG-" ++ String.mk (padZeros 4 n)).data = some n := by
  obtain ⟨hval, hdig, hne⟩ := natRepr_spec n
  have hdata : ("RG-" ++ String.mk (padZeros 4 n)).data
      = 'R' :: 'G' :: '-' :: padZeros 4 n := rfl
  have hpadne : padZeros 4 n ≠ [] := by
    unfold padZeros
    intro hcon
    exact hne (List.append_eq_nil.mp hcon).2
  have hpaddig : (padZeros 4 n).all Char.isDigit = true := by
    unfold padZeros
    rw [List.all_append, hdig]
    simp [List.all_eq_true]
  have hpadval : natOfDigits (padZeros 4 n) = n := by
    unfold padZeros
    rw [natOfDigits_replicate_zero, hval]
  rw [hdata, findRGNum, if_pos rfl,
    matchRGAt_digits _ hpadne hpaddig, hpadval]
  rfl

/-- Claim C8: group-id generation parses the `RG-` numeric suffix of
every existing id (parsing inverts the printer), takes the maximum (0
when none) plus one, and prints it as `RG-%04d`; on `RG-0001`/`RG-0003`
it yields `RG-0004`. -/
theorem generate_receipt_group_id_spec :
    (∀ n : Nat, findRGNum ("RG-" ++ String.mk (padZeros 4 n)).data = some n)
    ∧ (∀ data : Document, generate_receipt_group_id data
        = "RG-" ++ String.mk (padZeros 4
            (((data.receipts.map (fun r => r.receipt_group_id)).filterMap
              (fun s => findRGNum s.data)).foldr max 0 + 1)))
    ∧ generate_receipt_group_id
        { receipts := [{ sampleReceipt with receipt_group_id := "RG-0001" },
                       { sampleReceipt with receipt_group_id := "RG-0003" }],
          items := [], next_id := 1, integrity_issues := [] } = "RG-0004" :=
  ⟨findRGNum_padZeros, fun _ => rfl, by decide⟩

/-! # Claim C6: months guarantee adds calendar months and clamps -/

/-- The specification's reading of the `months` unit: add the duration in
calendar months, clamping the day-of-month to the last valid day of the
resulting month. -/
def addMonthsClamped (y m d k : Nat) : Nat × Nat × Nat :=
  let m0 := m - 1 + k
  let y2 := y + m0 / 12
  let m2 := m0 % 12 + 1
  (y2, m2, min d (daysInMonth y2 m2))

theorem parseMonthAbbrev_pos (l : List Char) (m : Nat)
    (h : parseMonthAbbrev l = some m) : 1 ≤ m := by
  unfold parseMonthAbbrev at h
  split at h
  · cases h
    omega
  · cases h

theorem parseDateYbD_pos (s : String) (y m d : Nat)
    (h : parseDateYbD s = some (y, m, d)) : 1 ≤ y ∧ 1 ≤ m := by
  unfold parseDateYbD at h
  split at h
  · rename_i ys ms ds
    split at h
    · rename_i y1 m1 d1 hy hm hd
      split at h
      · rename_i hguard
        cases h
        exact ⟨hguard.1, parseMonthAbbrev_pos _ _ hm⟩
      · cases h
    · cases h
  · cases h

/-- Claim C6: with unit `months`, the guarantee end date adds the
duration in calendar months to the purchase date, clamping the
day-of-month to the last valid day of the resulting month; in particular
`2024-Jan-31` plus one month is `2024-Feb-29`. -/
theorem guarantee_months_clamped :
    (∀ (pd : String) (y m d k : Nat),
      parseDateYbD pd = some (y, m, d) → 0 < k →
      y + (m + k - 1) / 12 + 1 ≤ 9999 →
      calculate_guarantee_end_date pd k "months"
        = formatDateYbD (addMonthsClamped y m d k).1
            (addMonthsClamped y m d k).2.1 (addMonthsClamped y m d k).2.2)
    ∧ calculate_guarantee_end_date "2024-Jan-31" 1 "months" = "2024-Feb-29" := by
  refine ⟨?_, by decide⟩
  intro pd y m d k hp hk hbound
  obtain ⟨hy1, hm1⟩ := parseDateYbD_pos pd y m d hp
  have harith : m + k - 1 = m - 1 + k := by omega
  unfold calculate_guarantee_end_date
  rw [if_neg (by omega : ¬ k = 0), hp]
  dsimp only
  rw [if_neg (by decide : ¬ (("months" : String) = "days"))]
  rw [if_pos (rfl : ("months" : String) = "months")]
  rw [if_neg (by omega :
    ¬ ((m + k - 1) % 12 + 1 = 12 ∧ y + (m + k - 1) / 12 + 1 > 9999))]
  rw [if_neg (by
    rintro ⟨-, hgt⟩
    omega)]
  unfold addMonthsClamped
  simp only [harith]
  rcases le_or_lt d (daysInMonth (y + (m - 1 + k) / 12) ((m - 1 + k) % 12 + 1))
    with hle | hlt
  · rw [if_pos hle, min_eq_left hle]
  · rw [if_neg (not_le.mpr hlt), min_eq_right (le_of_lt hlt)]

/-! # Claims C7 and C10: the sanitizer's guarantees -/

/-- The invariant that `re.sub(r"-+", "-", ·)` establishes: no two
adjacent hyphens. -/
def NoDoubleHyphen : List Char → Prop
  | [] => True
  | [_] => True
  | a :: b :: rest => ¬(a = '-' ∧ b = '-') ∧ NoDoubleHyphen (b :: rest)

instance instDecidableNoDoubleHyphen : (l : List Char) → Decidable (NoDoubleHyphen l)
  | [] => .isTrue trivial
  | [_] => .isTrue trivial
  | a :: b :: rest =>
    have : Decidable (NoDoubleHyphen (b :: rest)) :=
      instDecidableNoDoubleHyphen (b :: rest)
    inferInstanceAs (Decidable (¬(a = '-' ∧ b = '-') ∧ NoDoubleHyphen (b :: rest)))

theorem noDoubleHyphen_tail {a : Char} {l : List Char}
    (h : NoDoubleHyphen (a :: l)) : NoDoubleHyphen l := by
  cases l with
  | nil => trivial
  | cons b r => exact h.2

theorem mem_collapseHyphens {c : Char} : ∀ {l : List Char},
    c ∈ collapseHyphens l → c ∈ l := by
  intro l
  induction l with
  | nil => simp [collapseHyphens]
  | cons a t ih =>
    cases t with
    | nil => simp [collapseHyphens]
    | cons b r =>
      rw [collapseHyphens]
      split
      · intro h
        exact List.mem_cons_of_mem a (ih h)
      · intro h
        rcases List.mem_cons.mp h with h1 | h2
        · simp [h1]
        · exact List.mem_cons_of_mem a (ih h2)

theorem collapseHyphens_head? : ∀ (x : Char) (xs : List Char),
    (collapseHyphens (x :: xs)).head? = some x := by
  intro x xs
  induction xs generalizing x with
  | nil => rfl
  | cons b r ih =>
    rw [collapseHyphens]
    split
    · rename_i hab
      rw [ih b, hab.1, hab.2]
    · rfl

theorem noDoubleHyphen_collapseHyphens : ∀ l : List Char,
    NoDoubleHyphen (collapseHyphens l) := by
  intro l
  induction l with
  | nil => trivial
  | cons a t ih =>
    cases t with
    | nil => trivial
    | cons b r =>
      rw [collapseHyphens]
      split
      · exact ih
      · rename_i hab
        have hh := collapseHyphens_head? b r
        cases hx : collapseHyphens (b :: r) with
        | nil => trivial
        | cons c cs =>
          rw [hx] at hh ih
          have hcb : c = b := by simpa using hh
          refine ⟨?_, ih⟩
          rintro ⟨ha, hc⟩
          exact hab ⟨ha, hcb ▸ hc⟩

theorem noDoubleHyphen_append_left : ∀ (l t : List Char),
    NoDoubleHyphen (l ++ t) → NoDoubleHyphen l := by
  intro l t
  induction l with
  | nil => intro _; trivial
  | cons a l ih =>
    cases l with
    | nil => intro _; trivial
    | cons b r =>
      intro h
      exact ⟨h.1, ih h.2⟩

theorem noDoubleHyphen_of_prefixOf {l1 l2 : List Char} (h : l1 <+: l2)
    (hnd : NoDoubleHyphen l2) : NoDoubleHyphen l1 := by
  obtain ⟨t, rfl⟩ := h
  exact noDoubleHyphen_append_left l1 t hnd

theorem noDoubleHyphen_dropWhile (p : Char → Bool) : ∀ l : List Char,
    NoDoubleHyphen l → NoDoubleHyphen (l.dropWhile p) := by
  intro l
  induction l with
  | nil => intro _; trivial
  | cons a t ih =>
    intro h
    rw [List.dropWhile_cons]
    split
    · exact ih (noDoubleHyphen_tail h)
    · exact h

theorem collapseHyphens_of_noDouble : ∀ l : List Char,
    NoDoubleHyphen l → collapseHyphens l = l := by
  intro l
  induction l with
  | nil => intro _; rfl
  | cons a t ih =>
    cases t with
    | nil => intro _; rfl
    | cons b r =>
      intro h
      rw [collapseHyphens, if_neg h.1, ih h.2]

theorem rstripChar_prefixOf (c : Char) (l : List Char) : rstripChar c l <+: l := by
  refine ⟨(l.reverse.takeWhile (· = c)).reverse, ?_⟩
  conv_rhs => rw [← List.reverse_reverse l,
    ← List.takeWhile_append_dropWhile (· = c) l.reverse, List.reverse_append]
  rfl

theorem head?_eq_of_prefixOf {l1 l2 : List Char} (h : l1 <+: l2) (hne : l1 ≠ []) :
    l1.head? = l2.head? := by
  obtain ⟨t, rfl⟩ := h
  cases l1 with
  | nil => exact absurd rfl hne
  | cons a r => rfl

theorem head?_dropWhileEq_ne (c : Char) (l : List Char) :
    (l.dropWhile (· = c)).head? ≠ some c := by
  have h := List.head?_dropWhile_not (· = c) l
  intro hc
  rw [hc] at h
  simp at h

theorem getLast?_rstripChar_ne (c : Char) (l : List Char) :
    (rstripChar c l).getLast? ≠ some c := by
  rw [rstripChar, List.getLast?_reverse]
  exact head?_dropWhileEq_ne c l.reverse

theorem head?_stripChar_ne (c : Char) (l : List Char) :
    (stripChar c l).head? ≠ some c := by
  rw [stripChar]
  by_cases h : rstripChar c (l.dropWhile (· = c)) = []
  · rw [h]
    simp
  · rw [head?_eq_of_prefixOf (rstripChar_prefixOf c _) h]
    exact head?_dropWhileEq_ne c l

theorem getLast?_stripChar_ne (c : Char) (l : List Char) :
    (stripChar c l).getLast? ≠ some c :=
  getLast?_rstripChar_ne c _

theorem mem_rstripChar {a c : Char} {l : List Char} (h : a ∈ rstripChar c l) :
    a ∈ l :=
  ((rstripChar_prefixOf c l).sublist.subset) h

theorem mem_stripChar {a c : Char} {l : List Char} (h : a ∈ stripChar c l) :
    a ∈ l :=
  (List.dropWhile_sublist _).subset (mem_rstripChar h)

/-- The six facts claims C7 and C10 need about any sanitizer output:
nonempty, free of forbidden and whitespace characters, no hyphen run, no
edge hyphen, and — for maxima of at least 7 — within the maximum. -/
theorem sanitizeList_spec (l : List Char) (m : Nat) :
    sanitizeList l m ≠ []
    ∧ (∀ c ∈ sanitizeList l m, isForbiddenChar c = false ∧ isPyWhitespace c = false)
    ∧ NoDoubleHyphen (sanitizeList l m)
    ∧ (sanitizeList l m).head? ≠ some '-'
    ∧ (sanitizeList l m).getLast? ≠ some '-'
    ∧ (7 ≤ m → (sanitizeList l m).length ≤ m) := by
  unfold sanitizeList
  split
  · refine ⟨by decide, by decide, by decide, by decide, by decide, fun h7 => ?_⟩
    have hna : ("NA".data).length = 2 := by decide
    omega
  · simp only []
    set t1 := l.filter (fun c => !isForbiddenChar c) with ht1
    set t2 := t1.map (fun c => if isPyWhitespace c then '-' else c) with ht2
    set t3 := collapseHyphens t2 with ht3
    set t4 := stripChar '-' t3 with ht4
    have hmem2 : ∀ c ∈ t2, isForbiddenChar c = false ∧ isPyWhitespace c = false := by
      intro c hc
      rw [ht2] at hc
      obtain ⟨c0, hc0, hmap⟩ := List.mem_map.mp hc
      by_cases hws : isPyWhitespace c0
      · rw [if_pos hws] at hmap
        rw [← hmap]
        exact ⟨by decide, by decide⟩
      · rw [if_neg hws] at hmap
        subst hmap
        refine ⟨?_, by simpa using hws⟩
        rw [ht1] at hc0
        have := (List.mem_filter.mp hc0).2
        simpa using this
    have hmem4 : ∀ c ∈ t4, isForbiddenChar c = false ∧ isPyWhitespace c = false :=
      fun c hc => hmem2 c (mem_collapseHyphens (ht3 ▸ mem_stripChar (ht4 ▸ hc)))
    have hnd4 : NoDoubleHyphen t4 := by
      rw [ht4, stripChar]
      exact noDoubleHyphen_of_prefixOf (rstripChar_prefixOf _ _)
        (noDoubleHyphen_dropWhile _ _ (ht3 ▸ noDoubleHyphen_collapseHyphens t2))
    have hhead4 : t4.head? ≠ some '-' := ht4 ▸ head?_stripChar_ne '-' t3
    have hlast4 : t4.getLast? ≠ some '-' := ht4 ▸ getLast?_stripChar_ne '-' t3
    by_cases hlen : t4.length > m
    · rw [if_pos hlen]
      set t5 := rstripChar '-' (t4.take m) with ht5
      by_cases h5 : t5 = []
      · rw [if_pos h5]
        refine ⟨by decide, by decide, by decide, by decide, by decide, fun h7 => ?_⟩
        simp only [List.length_cons, List.length_nil]
        omega
      · rw [if_neg h5]
        have htk : t4.take m ≠ [] := by
          intro hcon
          apply h5
          rw [ht5, hcon]
          rfl
        refine ⟨h5, ?_, ?_, ?_, ?_, fun _ => ?_⟩
        · intro c hc
          exact hmem4 c ((List.take_sublist m t4).subset
            (mem_rstripChar (ht5 ▸ hc)))
        · rw [ht5]
          exact noDoubleHyphen_of_prefixOf (rstripChar_prefixOf _ _)
            (noDoubleHyphen_of_prefixOf (List.take_prefix m t4) hnd4)
        · rw [ht5, head?_eq_of_prefixOf (rstripChar_prefixOf '-' _) (ht5 ▸ h5),
            head?_eq_of_prefixOf (List.take_prefix m t4) htk]
          exact hhead4
        · rw [ht5]
          exact getLast?_rstripChar_ne '-' _
        · calc t5.length ≤ (t4.take m).length :=
                (ht5 ▸ rstripChar_prefixOf '-' (t4.take m)).length_le
            _ ≤ m := List.length_take_le m t4
    · rw [if_neg hlen]
      by_cases h4 : t4 = []
      · rw [if_pos h4]
        refine ⟨by decide, by decide, by decide, by decide, by decide, fun h7 => ?_⟩
        simp only [List.length_cons, List.length_nil]
        omega
      · rw [if_neg h4]
        exact ⟨h4, hmem4, hnd4, hhead4, hlast4, fun _ => by omega⟩

/-- Lists already satisfying the sanitizer's output invariants are fixed
points of the sanitizer. -/
theorem sanitizeList_fixed (l : List Char) (m : Nat)
    (hne : l ≠ [])
    (hmem : ∀ c ∈ l, isForbiddenChar c = false ∧ isPyWhitespace c = false)
    (hnd : NoDoubleHyphen l)
    (hhead : l.head? ≠ some '-')
    (hlast : l.getLast? ≠ some '-')
    (hlen : l.length ≤ m) :
    sanitizeList l m = l := by
  have hna : l ≠ "N/A".data := by
    intro hcon
    have hsl : '/' ∈ l := by
      rw [hcon]
      decide
    have hf := (hmem '/' hsl).1
    have ht : isForbiddenChar '/' = true := by decide
    rw [ht] at hf
    cases hf
  unfold sanitizeList
  rw [if_neg (by push_neg; exact ⟨hne, hna⟩)]
  simp only []
  have h1 : l.filter (fun c => !isForbiddenChar c) = l :=
    List.filter_eq_self.mpr (fun a ha => by simp [(hmem a ha).1])
  rw [h1]
  have h2 : l.map (fun c => if isPyWhitespace c then '-' else c) = l := by
    have hid : ∀ a ∈ l, (if isPyWhitespace a then '-' else a) = id a :=
      fun a ha => by simp [(hmem a ha).2]
    rw [List.map_congr_left hid, List.map_id]
  rw [h2]
  rw [collapseHyphens_of_noDouble l hnd]
  have h4 : stripChar '-' l = l := by
    rw [stripChar]
    have hd : l.dropWhile (· = '-') = l := by
      cases l with
      | nil => rfl
      | cons a t =>
        rw [List.dropWhile_cons_of_neg]
        simp only [List.head?_cons, ne_eq, Option.some.injEq] at hhead
        simpa using hhead
    rw [hd, rstripChar]
    have hr : l.reverse.dropWhile (· = '-') = l.reverse := by
      cases hrev : l.reverse with
      | nil => rfl
      | cons a t =>
        have hga : l.getLast? = some a := by
          rw [← List.head?_reverse, hrev]
          rfl
        rw [List.dropWhile_cons_of_neg]
        intro hcon
        apply hlast
        rw [hga]
        simpa using hcon
    rw [hr, List.reverse_reverse]
  rw [h4, if_neg (by omega : ¬ l.length > m), if_neg hne]

/-- Claim C7 (amended): for every input and maximum, the output contains
no forbidden character and has no leading or trailing hyphen; whenever
the maximum is at least 7 — the placeholders `NA`/`unnamed` may exceed
smaller maxima — the output length is at most the maximum. -/
theorem sanitize_filename_guarantees (t : String) (m : Nat) :
    (∀ c ∈ (sanitize_filename t m).data, isForbiddenChar c = false)
    ∧ (sanitize_filename t m).data.head? ≠ some '-'
    ∧ (sanitize_filename t m).data.getLast? ≠ some '-'
    ∧ (7 ≤ m → (sanitize_filename t m).length ≤ m) := by
  obtain ⟨h1, h2, h3, h4, h5, h6⟩ := sanitizeList_spec t.data m
  exact ⟨fun c hc => (h2 c hc).1, h4, h5, h6⟩

/-- Counterexample to claim C7 as stated: with maximum length 1 the
empty input yields the placeholder `NA`, of length 2. -/
theorem sanitize_filename_length_counterexample :
    ¬ ((sanitize_filename "" 1).length ≤ 1) := by decide

/-- Claim C10: for maxima of at least 7 the sanitizer is idempotent. -/
theorem sanitize_filename_idempotent (t : String) (m : Nat) (h7 : 7 ≤ m) :
    sanitize_filename (sanitize_filename t m) m = sanitize_filename t m := by
  obtain ⟨h1, h2, h3, h4, h5, h6⟩ := sanitizeList_spec t.data m
  have hfix := sanitizeList_fixed (sanitizeList t.data m) m h1 h2 h3 h4 h5 (h6 h7)
  exact congrArg String.mk hfix

/-- Witness for claim C10 at a concrete input. -/
theorem sanitize_filename_idempotent_witness :
    sanitize_filename (sanitize_filename "Media Markt/B.V." 50) 50
      = sanitize_filename "Media Markt/B.V." 50 :=
  sanitize_filename_idempotent "Media Markt/B.V." 50 (by omega)

end ReceiptsApp
